import Mathlib

/-!
# Verification of the konveyor-iq evaluation pipeline

Shallow embedding of the parts of the repository that the specification's
claims are about:

* the pass/fail gate `EvaluationEngine._determine_pass` and the failure-reason
  function `EvaluationEngine._determine_failure_reason` (src/evaluate.py);
* the per-evaluator aggregation loop `EvaluationEngine._run_evaluators`
  (src/evaluate.py);
* the model ranking functions `_rank_models` of the two HTML reporters
  (src/reporters/html_reporter.py and src/reporters/html_reporter_grafana.py);
* the compilation dispatch `FunctionalCorrectnessEvaluator._check_compilation`
  and the import injector `_inject_missing_imports` together with the
  `COMMON_JAVA_IMPORTS` table (src/evaluators/functional.py);
* the efficiency evaluator `EfficiencyEvaluator.evaluate` and its Python
  benchmark helper (src/evaluators/efficiency.py).

Python dictionaries of metrics are modelled by a record of `Option` fields
(`None` = key absent), mirroring `dict.get(key, default)` by `Option.getD`.
Floating point arithmetic of the scoring code is modelled over `ℚ`.
-/

namespace KonveyorIQ

/-! ## Pass/fail gate (src/evaluate.py, `_determine_pass` and
`_determine_failure_reason`)

The gate reads a handful of keys of the merged metrics dictionary; a metrics
map is modelled as a record of optional values for exactly those keys
(`none` = the key is absent from the dictionary). -/

structure GateMetrics where
  functional_correctness : Option Bool
  introduces_violations : Option Bool
  compiles : Option Bool
  high_severity_security : Option Int
  new_violation_count : Option Int
  compilation_error : Option String

/-- `EvaluationEngine._determine_pass` (src/evaluate.py lines 458-476).
Python `metrics.get(k, d)` is `Option.getD`; `"compiles" in metrics and not
metrics["compiles"]` is the test `compiles = some false`. -/
def determinePass (m : GateMetrics) : Bool :=
  if !(m.functional_correctness.getD false) then false
  else if m.introduces_violations.getD true then false
  else if m.compiles = some false then false
  else if m.high_severity_security.getD 0 > 0 then false
  else true

/-- Truncation of long compilation error messages
(`error_msg[:200] + "..."` in `_determine_failure_reason`). -/
def truncateError (e : String) : String :=
  if e.length > 200 then (e.take 200) ++ "..." else e

/-- `EvaluationEngine._determine_failure_reason` (src/evaluate.py lines
478-501).  Note the default for a missing `introduces_violations` is `False`
here, unlike in `_determine_pass` where it is `True`. -/
def determineFailureReason (m : GateMetrics) : String :=
  if !(m.functional_correctness.getD false) then
    "Does not resolve violation"
  else if m.introduces_violations.getD false then
    let n := m.new_violation_count.getD 0
    s!"Introduces new violations ({n} new violation(s))"
  else if m.compiles = some false then
    match m.compilation_error with
    | some e => "Compilation error: " ++ truncateError e
    | none => "Compilation error"
  else if m.high_severity_security.getD 0 > 0 then
    let n := m.high_severity_security.getD 0
    s!"High severity security issues ({n} issue(s))"
  else
    "Unknown failure"

/-! ## Evaluator aggregation (src/evaluate.py, `_run_evaluators`)

Each evaluator either returns a dictionary of metrics (`Except.ok`) or raises
(`Except.error`).  The merged metrics dictionary is modelled as a partial map
`String → Option V`; `metrics.update(result)` writes every key of `result`. -/

structure Evaluator (V : Type) where
  name : String
  enabled : Bool
  run : Except String (List (String × V))

/-- `metrics.update(result)`: every binding of `kvs` overwrites the map, a
later binding for the same key winning. -/
def dictUpdate {V : Type} (m : String → Option V) (kvs : List (String × V)) :
    String → Option V :=
  fun k =>
    match (kvs.reverse).find? (fun kv => kv.1 == k) with
    | some kv => some kv.2
    | none => m k

/-- `EvaluationEngine._run_evaluators` (src/evaluate.py lines 431-456): loop
over the evaluators; a raising evaluator only prints a warning and the loop
continues with the metrics gathered so far. -/
def runEvaluators {V : Type} (evs : List (Evaluator V)) : String → Option V :=
  evs.foldl
    (fun m ev =>
      if ev.enabled then
        match ev.run with
        | .ok r => dictUpdate m r
        | .error _ => m
      else m)
    (fun _ => none)

/-! ## Model ranking (src/reporters/html_reporter.py `_rank_models`, 5-factor,
and src/reporters/html_reporter_grafana.py `_rank_models`, 7-factor)

Per-model aggregates as collected by `_collect_model_stats`; Python float
arithmetic is modelled over `ℚ` (the literal `3.33` is `333/100`). -/

structure ModelStats where
  total : ℕ
  passed : ℕ
  compiled : ℕ
  response_times : List ℚ
  costs : List ℚ
  complexities : List ℚ
  maintainability_scores : List ℚ
  security_issues : List ℚ
  explanation_scores : List ℚ
  comment_densities : List ℚ

/-- `sum(xs)/len(xs) if xs else None` -/
def listAvg (l : List ℚ) : Option ℚ :=
  if l = [] then none else some (l.sum / l.length)

/-- `(stats["passed"] / stats["total"] * 100) if stats["total"] > 0 else 0` -/
def passRate (s : ModelStats) : ℚ :=
  if 0 < s.total then (s.passed : ℚ) / (s.total : ℚ) * 100 else 0

def compileRate (s : ModelStats) : ℚ :=
  if 0 < s.total then (s.compiled : ℚ) / (s.total : ℚ) * 100 else 0

/-- `sum(.)/len(.) if stats["response_times"] else 0` -/
def avgResponseTime (s : ModelStats) : ℚ :=
  if s.response_times = [] then 0
  else s.response_times.sum / s.response_times.length

def totalCost (s : ModelStats) : ℚ := s.costs.sum

/-- `max(0, 100 - (avg_complexity - 1) * 3.33)` -/
def complexityScore (c : ℚ) : ℚ := max 0 (100 - (c - 1) * (333 / 100))

/-- `max(0, 100 - (avg_response_time / 100))` -/
def timeScore (t : ℚ) : ℚ := max 0 (100 - t / 100)

/-- `max(0, 100 - (total_cost * 100)) if total_cost > 0 else 100` -/
def costScore (c : ℚ) : ℚ := if 0 < c then max 0 (100 - c * 100) else 100

/-- The quality block of both `_rank_models` bodies: the average of the
available quality sub-scores (complexity-derived and maintainability), `none`
when `quality_count == 0` and the block adds nothing to the score. -/
def qualitySubscore (avgC avgM : Option ℚ) : Option ℚ :=
  let qsum := (match avgC with
    | some c => complexityScore c
    | none => 0) + (match avgM with
    | some m => m
    | none => 0)
  let qcount : ℕ := (if avgC.isSome then 1 else 0) + (if avgM.isSome then 1 else 0)
  if 0 < qcount then some (qsum / qcount) else none

/-- `max(0, 100 - (avg_security_issues * 20))` (grafana reporter). -/
def securityScore (a : ℚ) : ℚ := max 0 (100 - a * 20)

/-- The comment-density sub-score of the grafana reporter's explainability
block (`percentage = avg_comment_density * 100`). -/
def densityScore (d : ℚ) : ℚ :=
  if 10 ≤ d * 100 ∧ d * 100 ≤ 30 then 100
  else if 30 < d * 100 then max 0 (100 - (d * 100 - 30) * (333 / 100))
  else if 0 < d * 100 then d * 100 * 10
  else 0

/-- The explainability block of the grafana `_rank_models`: average of the
available sub-scores (explanation score scaled to 0-100, comment density
score), `none` when none is available. -/
def explainabilitySubscore (avgE avgD : Option ℚ) : Option ℚ :=
  let esum := (match avgE with
    | some e => e * 10
    | none => 0) + (match avgD with
    | some d => densityScore d
    | none => 0)
  let ecount : ℕ := (if avgE.isSome then 1 else 0) + (if avgD.isSome then 1 else 0)
  if 0 < ecount then some (esum / ecount) else none

/-- Composite score of `HTMLReporter._rank_models`
(src/reporters/html_reporter.py lines 406-477): pass 50%, compile 20%,
quality 20%, speed 5%, cost 5%. -/
def compositeScore (s : ModelStats) : ℚ :=
  let base := passRate s * (1 / 2) + compileRate s * (1 / 5)
  let withQuality := base + (match qualitySubscore (listAvg s.complexities)
      (listAvg s.maintainability_scores) with
    | some q => q * (1 / 5)
    | none => 0)
  withQuality + timeScore (avgResponseTime s) * (1 / 20)
    + costScore (totalCost s) * (1 / 20)

/-- Composite score of the grafana `_rank_models`
(src/reporters/html_reporter_grafana.py lines 536-647): pass 40%, compile
15%, quality 15%, security 15%, explainability 10%, speed 2.5%, cost 2.5%. -/
def compositeScoreGrafana (s : ModelStats) : ℚ :=
  let base := passRate s * (2 / 5) + compileRate s * (3 / 20)
  let withQuality := base + (match qualitySubscore (listAvg s.complexities)
      (listAvg s.maintainability_scores) with
    | some q => q * (3 / 20)
    | none => 0)
  let withSecurity := withQuality + (match listAvg s.security_issues with
    | some a => securityScore a * (3 / 20)
    | none => 0)
  let withExplain := withSecurity + (match explainabilitySubscore
      (listAvg s.explanation_scores) (listAvg s.comment_densities) with
    | some e => e * (1 / 10)
    | none => 0)
  withExplain + timeScore (avgResponseTime s) * (1 / 40)
    + costScore (totalCost s) * (1 / 40)

/-- One entry of the `rankings` list, reduced to the fields the ranking claims
are about. -/
structure RankingEntry where
  model_name : String
  score : ℚ

/-- `rankings.sort(key=lambda x: x["score"], reverse=True)` is Python's
stable sort, descending on the score: an element precedes another iff its
score is larger, or the scores are equal and it came first.  A stable
descending sort is implemented by insertion sort with the relation
`fun a b => b.score ≤ a.score`. -/
def sortRankings (l : List RankingEntry) : List RankingEntry :=
  List.insertionSort (fun a b => b.score ≤ a.score) l

/-- `HTMLReporter._rank_models`: build one entry per model in dictionary
(insertion) order, then stable-sort by score descending. -/
def rankModels (l : List (String × ModelStats)) : List RankingEntry :=
  sortRankings (l.map (fun p => ⟨p.1, compositeScore p.2⟩))

/-- The grafana `_rank_models`, same shape with the 7-factor score. -/
def rankModelsGrafana (l : List (String × ModelStats)) : List RankingEntry :=
  sortRankings (l.map (fun p => ⟨p.1, compositeScoreGrafana p.2⟩))

/-! ## Compilation dispatch
(src/evaluators/functional.py, `_check_compilation`)

`_compile_java` / `_compile_python` run external tooling; their outcomes are
parameters.  The tri-state first component is `some true` (compiles),
`some false` (does not), or `none` (unknown — Python `None`, returned by
`_compile_java` when `javac` is unavailable). -/

def checkCompilation (language : String)
    (javaResult pythonResult : Option Bool × String) : Option Bool × String :=
  if language = "java" then javaResult
  else if language = "python" then pythonResult
  else (some true, "")

/-! ## Import injection (src/evaluators/functional.py,
`_inject_missing_imports` and `COMMON_JAVA_IMPORTS`) -/

/-- Python's substring test `pat in s`, on the underlying character lists. -/
def containsSub : List Char → List Char → Bool
  | s, p =>
    if p.isPrefixOf s then true
    else match s with
      | [] => false
      | _ :: t => containsSub t p

def strContains (s pat : String) : Bool := containsSub s.toList pat.toList

/-- A value of the `COMMON_JAVA_IMPORTS` dictionary: a single import
statement, or a list of alternative statements. -/
inductive ImportEntry where
  | single (stmt : String)
  | multi (stmts : List String)
  deriving DecidableEq

/-- `COMMON_JAVA_IMPORTS` (src/evaluators/functional.py lines 14-39). -/
def commonJavaImports : List (String × ImportEntry) :=
  [("@Stateless", .single "import javax.ejb.Stateless;"),
   ("@Stateful", .single "import javax.ejb.Stateful;"),
   ("@Singleton", .multi ["import javax.ejb.Singleton;",
      "import jakarta.inject.Singleton;"]),
   ("@Startup", .single "import javax.ejb.Startup;"),
   ("@MessageDriven", .single "import javax.ejb.MessageDriven;"),
   ("@EJB", .single "import javax.ejb.EJB;"),
   ("@ApplicationScoped", .multi ["import javax.enterprise.context.ApplicationScoped;",
      "import jakarta.enterprise.context.ApplicationScoped;"]),
   ("@SessionScoped", .multi ["import javax.enterprise.context.SessionScoped;",
      "import jakarta.enterprise.context.SessionScoped;"]),
   ("@RequestScoped", .multi ["import javax.enterprise.context.RequestScoped;",
      "import jakarta.enterprise.context.RequestScoped;"]),
   ("@Named", .multi ["import javax.inject.Named;",
      "import jakarta.inject.Named;"]),
   ("@Inject", .multi ["import javax.inject.Inject;",
      "import jakarta.inject.Inject;"]),
   ("@Produces", .multi ["import javax.enterprise.inject.Produces;",
      "import jakarta.enterprise.inject.Produces;"]),
   ("@Observes", .single "import jakarta.enterprise.event.Observes;"),
   ("@PersistenceContext", .multi ["import javax.persistence.PersistenceContext;",
      "import jakarta.persistence.PersistenceContext;"]),
   ("EntityManager", .multi ["import javax.persistence.EntityManager;",
      "import jakarta.persistence.EntityManager;"]),
   ("@Transactional", .multi ["import javax.transaction.Transactional;",
      "import jakarta.transaction.Transactional;"]),
   ("MessageListener", .single "import javax.jms.MessageListener;"),
   ("Message", .single "import javax.jms.Message;"),
   ("TextMessage", .single "import javax.jms.TextMessage;"),
   ("JMSException", .single "import javax.jms.JMSException;"),
   ("StartupEvent", .single "import io.quarkus.runtime.StartupEvent;"),
   ("@Incoming", .single "import org.eclipse.microprofile.reactive.messaging.Incoming;"),
   ("@ActivationConfigProperty", .single "import javax.ejb.ActivationConfigProperty;")]

/-- `stmt.replace("import ", "").replace(";", "")` -/
def stripImportStmt (stmt : String) : String :=
  (stmt.replace "import " "").replace ";" ""

/-- One iteration of the selection loop of `_inject_missing_imports`
(src/evaluators/functional.py lines 253-313): the imports the loop appends to
`imports_to_add` for a given table entry.  `existing` models the set
`existing_imports` of already-imported class names. -/
def importsForEntry (code : String) (existing : List String)
    (pat : String) (entry : ImportEntry) : List String :=
  if strContains code pat then
    match entry with
    | .single stmt =>
        if existing.contains (stripImportStmt stmt) then [] else [stmt]
    | .multi stmts =>
        let importClasses := stmts.map stripImportStmt
        if importClasses.any (fun c => existing.contains c) then []
        else if strContains code "jakarta" then
          stmts.filter (fun s => strContains s "jakarta")
        else
          stmts.filter (fun s => strContains s "javax")
  else []

/-- The whole selection loop: concatenation of the per-entry contributions in
table order (`imports_to_add` before deduplication and insertion). -/
def importsToAdd (code : String) (existing : List String) : List String :=
  (commonJavaImports.map (fun pe => importsForEntry code existing pe.1 pe.2)).flatten

/-! ## Efficiency evaluator (src/evaluators/efficiency.py, `evaluate` and
`_run_python_benchmark`)

The subprocess run is environment behaviour, abstracted as an outcome: it
finishes with measurements, or `_run_python_benchmark` raises
`subprocess.TimeoutExpired` (after killing the child), or some other
exception is raised. -/

inductive BenchOutcome where
  | ok (timeMs memMb : ℚ)
  | timeout
  | error (msg : String)

/-- `EfficiencyEvaluator.evaluate` (src/evaluators/efficiency.py lines
17-60): empty result when disabled or no test code; for Python, the benchmark
outcome is recorded, and the `except Exception` handler swallows any raised
exception (including the re-raised `TimeoutExpired`), so `results` is
returned with no keys at all; for any other language nothing is measured. -/
def efficiencyEvaluate (enabled : Bool) (testCode : Option String)
    (language : String) (bench : BenchOutcome) : List (String × ℚ) :=
  if enabled = false then []
  else
    match testCode with
    | none => []
    | some _ =>
      if language = "python" then
        match bench with
        | .ok t m => [("execution_time_ms", t), ("memory_usage_mb", m)]
        | .timeout => []
        | .error _ => []
      else []

/-! ## Theorems -/

/-- C1: for every metrics map with `functional_correctness=true`,
`introduces_violations=true`, `new_violation_count=2` and `compiles=false`,
the gate returns `passed=false` and the short failure reason is the
introduces-violations message mentioning "2 new violation(s)": precedence
rule 2 fires before the compilation rule 3. -/
theorem pass_gate_violations_precede_compile_error (m : GateMetrics)
    (h1 : m.functional_correctness = some true)
    (h2 : m.introduces_violations = some true)
    (h3 : m.new_violation_count = some 2)
    (h4 : m.compiles = some false) :
    determinePass m = false ∧
      determineFailureReason m = "Introduces new violations (2 new violation(s))" := by
  constructor
  · simp [determinePass, h1, h2]
  · simp [determineFailureReason, h1, h2, h3]
    rfl

theorem pass_gate_violations_precede_compile_error_witness :
    determinePass ⟨some true, some true, some false, some 0, some 2, some "x"⟩ = false ∧
      determineFailureReason ⟨some true, some true, some false, some 0, some 2, some "x"⟩ =
        "Introduces new violations (2 new violation(s))" :=
  pass_gate_violations_precede_compile_error
    ⟨some true, some true, some false, some 0, some 2, some "x"⟩ rfl rfl rfl rfl

/-- C2: whenever `functional_correctness` is absent or `false`, the gate
fails with reason "Does not resolve violation", whatever the other metrics
are (fail-closed). -/
theorem pass_gate_fail_closed_on_functional (m : GateMetrics)
    (h : m.functional_correctness = none ∨ m.functional_correctness = some false) :
    determinePass m = false ∧
      determineFailureReason m = "Does not resolve violation" := by
  rcases h with h | h <;>
    exact ⟨by simp [determinePass, h], by simp [determineFailureReason, h]⟩

theorem pass_gate_fail_closed_on_functional_witness :
    determinePass ⟨none, some false, some true, some 0, some 0, none⟩ = false ∧
      determineFailureReason ⟨none, some false, some true, some 0, some 0, none⟩ =
        "Does not resolve violation" :=
  pass_gate_fail_closed_on_functional
    ⟨none, some false, some true, some 0, some 0, none⟩ (Or.inl rfl)

/-- C10: with `functional_correctness=true`, `introduces_violations` absent,
`compiles` absent or `true` and `high_severity_security` `0` or absent, the
pass decision defaults the missing `introduces_violations` to `true` and
fails, while the failure-reason function defaults the same key to `false`
and answers "Unknown failure". -/
theorem pass_gate_missing_violations_inconsistency (m : GateMetrics)
    (h1 : m.functional_correctness = some true)
    (h2 : m.introduces_violations = none)
    (h3 : m.compiles = none ∨ m.compiles = some true)
    (h4 : m.high_severity_security = none ∨ m.high_severity_security = some 0) :
    determinePass m = false ∧ determineFailureReason m = "Unknown failure" := by
  constructor
  · simp [determinePass, h1, h2]
  · rcases h3 with h3 | h3 <;> rcases h4 with h4 | h4 <;>
      simp [determineFailureReason, h1, h2, h3, h4]

theorem pass_gate_missing_violations_inconsistency_witness :
    determinePass ⟨some true, none, some true, some 0, none, none⟩ = false ∧
      determineFailureReason ⟨some true, none, some true, some 0, none, none⟩ =
        "Unknown failure" :=
  pass_gate_missing_violations_inconsistency
    ⟨some true, none, some true, some 0, none, none⟩ rfl rfl (Or.inr rfl) (Or.inr rfl)

/-- C6 counterexample: for a language that is neither Java nor Python (here
"go"), `_check_compilation` does not report the unknown tri-state (`none`);
it reports a definite success `(some true, "")`, whatever the Java and
Python compilation outcomes would be. -/
theorem unsupported_language_counterexample :
    checkCompilation "go" (none, "javac not available") (some false, "err") =
      (some true, "") ∧
      checkCompilation "go" (none, "javac not available") (some false, "err") ≠
        (none, "") := by
  constructor
  · rfl
  · intro h
    simp [checkCompilation] at h

/-- C6 amended: for every language other than Java and Python the compile
check is skipped and reported as a definite success `(some true, "")` — not
as a failure, and not as the unknown tri-state (which `_compile_java`
reserves for a missing `javac`). -/
theorem unsupported_language_reports_success (lang : String)
    (javaResult pythonResult : Option Bool × String)
    (h1 : lang ≠ "java") (h2 : lang ≠ "python") :
    checkCompilation lang javaResult pythonResult = (some true, "") := by
  simp [checkCompilation, h1, h2]

theorem unsupported_language_reports_success_witness :
    checkCompilation "go" (none, "javac not available") (some true, "") =
      (some true, "") :=
  unsupported_language_reports_success "go" (none, "javac not available")
    (some true, "") (by decide) (by decide)

/-- C7 counterexample: when the Python benchmark subprocess times out, the
efficiency evaluator's result is the empty metrics map — no
`execution_time_ms`/`memory_usage_mb` and no failure marker of any kind, so
the timeout is not a hard failure signal. -/
theorem efficiency_timeout_counterexample :
    efficiencyEvaluate true (some "run_tests()") "python" BenchOutcome.timeout = [] :=
  rfl

/-- C7 amended: on a subprocess timeout `_run_python_benchmark` kills the
child and re-raises `TimeoutExpired`, but `evaluate` catches every exception,
so the evaluator contributes no metrics at all: the timeout surfaces only as
absent `execution_time_ms`/`memory_usage_mb`, exactly as any other benchmark
exception does, and never as a failure signal. -/
theorem efficiency_timeout_yields_absent_metrics (testCode : String) :
    efficiencyEvaluate true (some testCode) "python" BenchOutcome.timeout = [] ∧
      ∀ msg : String,
        efficiencyEvaluate true (some testCode) "python" (BenchOutcome.error msg) = [] :=
  ⟨rfl, fun _ => rfl⟩

/-- C9: a raising evaluator is caught by the aggregation loop: the merged
metrics are exactly those of the run without it (all other evaluators still
contribute, the run is not aborted), and a key that no other evaluator
produces is absent from the merged record, never defaulted. -/
theorem evaluator_failure_isolated {V : Type} (pre post : List (Evaluator V))
    (ev : Evaluator V) (err : String) (h : ev.run = .error err) :
    runEvaluators (pre ++ ev :: post) = runEvaluators (pre ++ post) ∧
      ∀ k : String,
        (∀ e ∈ pre ++ post, ∀ r, e.run = .ok r → k ∉ r.map Prod.fst) →
        runEvaluators (pre ++ ev :: post) k = none := by
  have step :
      ∀ (m : String → Option V),
        (if ev.enabled then
          match ev.run with
          | .ok r => dictUpdate m r
          | .error _ => m
          else m) = m := by
    intro m
    rcases hev : ev.enabled with _ | _ <;> simp [hev, h]
  have main : runEvaluators (pre ++ ev :: post) = runEvaluators (pre ++ post) := by
    unfold runEvaluators
    rw [List.foldl_append, List.foldl_append, List.foldl_cons, step]
  refine ⟨main, fun k hk => ?_⟩
  rw [main]
  unfold runEvaluators
  have absent :
      ∀ (evs : List (Evaluator V)) (m : String → Option V),
        (∀ e ∈ evs, ∀ r, e.run = .ok r → k ∉ r.map Prod.fst) →
        m k = none →
        (evs.foldl
          (fun m ev =>
            if ev.enabled then
              match ev.run with
              | .ok r => dictUpdate m r
              | .error _ => m
            else m) m) k = none := by
    intro evs
    induction evs with
    | nil => intro m _ hm; simpa using hm
    | cons e t ih =>
      intro m hmem hm
      rw [List.foldl_cons]
      refine ih _ (fun e' he' => hmem e' (List.mem_cons_of_mem _ he')) ?_
      rcases he : e.enabled with _ | _
      · simpa [he] using hm
      · rcases hrun : e.run with msg | r
        · simpa [he, hrun] using hm
        · have hk' : k ∉ r.map Prod.fst := hmem e (List.mem_cons_self _ _) r hrun
          simp only [he, if_true, hrun]
          unfold dictUpdate
          rcases hfind : (r.reverse).find? (fun kv => kv.1 == k) with _ | kv
          · simpa [hfind] using hm
          · exfalso
            have := List.find?_some hfind
            have hmemkv : kv ∈ r.reverse := List.mem_of_find?_eq_some hfind
            apply hk'
            rw [List.mem_map]
            exact ⟨kv, List.mem_reverse.mp hmemkv, by simpa using this⟩
  exact absent (pre ++ post) _ hk rfl

theorem evaluator_failure_isolated_witness :
    runEvaluators (([] : List (Evaluator Bool)) ++
        ⟨"security", true, .error "boom"⟩ ::
          [⟨"functional", true, .ok [("compiles", true)]⟩]) =
      runEvaluators ([] ++ [⟨"functional", true, .ok [("compiles", true)]⟩]) ∧
      ∀ k : String,
        (∀ e ∈ ([] : List (Evaluator Bool)) ++
            [⟨"functional", true, .ok [("compiles", true)]⟩],
          ∀ r, e.run = .ok r → k ∉ r.map Prod.fst) →
        runEvaluators (([] : List (Evaluator Bool)) ++
          ⟨"security", true, .error "boom"⟩ ::
            [⟨"functional", true, .ok [("compiles", true)]⟩]) k = none :=
  evaluator_failure_isolated []
    [⟨"functional", true, .ok [("compiles", true)]⟩]
    ⟨"security", true, .error "boom"⟩ "boom" rfl

/-! ### Stability of the ranking sort -/

theorem filter_orderedInsert_of_neg {α : Type} (p : α → Bool)
    (r : α → α → Prop) [DecidableRel r] (a : α) (h : p a = false) :
    ∀ m : List α, (List.orderedInsert r a m).filter p = m.filter p := by
  intro m
  induction m with
  | nil => simp [List.orderedInsert, h]
  | cons y t ih =>
    by_cases hr : r a y
    · simp [List.orderedInsert, hr, List.filter_cons, h]
    · simp only [List.orderedInsert, if_neg hr, List.filter_cons]
      rcases hy : p y with _ | _ <;> simp [hy, ih]

theorem filter_orderedInsert_of_pos {α : Type} (p : α → Bool)
    (r : α → α → Prop) [DecidableRel r] (a : α) (h : p a = true)
    (hr : ∀ y, p y = true → r a y) :
    ∀ m : List α, (List.orderedInsert r a m).filter p = a :: m.filter p := by
  intro m
  induction m with
  | nil => simp [List.orderedInsert, h]
  | cons y t ih =>
    by_cases hry : r a y
    · simp [List.orderedInsert, hry, List.filter_cons, h]
    · have hy : p y = false := by
        rcases hpy : p y with _ | _
        · rfl
        · exact absurd (hr y hpy) hry
      simp [List.orderedInsert, hry, List.filter_cons, hy, ih]

theorem filter_insertionSort {α : Type} (p : α → Bool)
    (r : α → α → Prop) [DecidableRel r]
    (hp : ∀ a, p a = true → ∀ y, p y = true → r a y) :
    ∀ l : List α, (List.insertionSort r l).filter p = l.filter p := by
  intro xs
  induction xs with
  | nil => rfl
  | cons hd tl IH =>
    rw [List.insertionSort, List.filter_cons]
    rcases hhd : p hd with _ | _
    · rw [filter_orderedInsert_of_neg p r hd hhd, IH]
      simp
    · rw [filter_orderedInsert_of_pos p r hd hhd (hp hd hhd), IH]
      simp

theorem sortRankings_sorted (l : List RankingEntry) :
    (sortRankings l).Pairwise (fun a b => b.score ≤ a.score) := by
  haveI : IsTotal RankingEntry (fun a b => b.score ≤ a.score) :=
    ⟨fun a b => (le_total b.score a.score)⟩
  haveI : IsTrans RankingEntry (fun a b => b.score ≤ a.score) :=
    ⟨fun _ _ _ hab hbc => le_trans hbc hab⟩
  exact List.sorted_insertionSort _ l

theorem sortRankings_stable (l : List RankingEntry) (q : ℚ) :
    (sortRankings l).filter (fun e => decide (e.score = q)) =
      l.filter (fun e => decide (e.score = q)) := by
  refine filter_insertionSort _ _ ?_ l
  intro a ha y hy
  have ha' : a.score = q := of_decide_eq_true ha
  have hy' : y.score = q := of_decide_eq_true hy
  rw [ha', hy']

/-- C5: in both reporters the produced ranking list is sorted by composite
score in descending order, it is a permutation of the per-model entries built
in model-iteration order, and for every score value the entries holding
exactly that score appear in their original insertion order — the sort is
stable on ties. -/
theorem ranking_sorted_descending_and_stable (l : List (String × ModelStats)) :
    ((rankModels l).Pairwise (fun a b => b.score ≤ a.score) ∧
      (rankModels l).Perm (l.map (fun p => ⟨p.1, compositeScore p.2⟩)) ∧
      ∀ q : ℚ, (rankModels l).filter (fun e => decide (e.score = q)) =
        (l.map (fun p => RankingEntry.mk p.1 (compositeScore p.2))).filter
          (fun e => decide (e.score = q))) ∧
    ((rankModelsGrafana l).Pairwise (fun a b => b.score ≤ a.score) ∧
      (rankModelsGrafana l).Perm
        (l.map (fun p => ⟨p.1, compositeScoreGrafana p.2⟩)) ∧
      ∀ q : ℚ, (rankModelsGrafana l).filter (fun e => decide (e.score = q)) =
        (l.map (fun p => RankingEntry.mk p.1 (compositeScoreGrafana p.2))).filter
          (fun e => decide (e.score = q))) :=
  ⟨⟨sortRankings_sorted _, List.perm_insertionSort _ _,
      fun q => sortRankings_stable _ q⟩,
    ⟨sortRankings_sorted _, List.perm_insertionSort _ _,
      fun q => sortRankings_stable _ q⟩⟩

/-- C4 counterexample: on the Scenario C aggregate (total=10, passed=8,
compiled=10, average response time 500 ms, total cost $0.01, no quality
data), the 5-factor composite score is exactly 69.7, which is 0.27 below the
claimed value 69.97: the speed term is 95×0.05 = 4.75 (not 4.975) and the
cost term is 99×0.05 = 4.95 (not 4.99). -/
theorem scenario_c_composite_counterexample :
    compositeScore ⟨10, 8, 10, [500], [1 / 100], [], [], [], [], []⟩ = 697 / 10 ∧
      6997 / 100 - compositeScore ⟨10, 8, 10, [500], [1 / 100], [], [], [], [], []⟩ =
        27 / 100 := by
  constructor <;>
    norm_num [compositeScore, passRate, compileRate, avgResponseTime, totalCost,
      listAvg, qualitySubscore, timeScore, costScore]

/-- C4 amended: on the Scenario C aggregate the 5-factor ranking computes
pass_rate=80, compile_rate=100, speed sub-score `max(0, 100 - 500/100) = 95`,
cost sub-score `max(0, 100 - 0.01*100) = 99`, and the composite score
80×0.5 + 100×0.2 + 95×0.05 + 99×0.05 = 69.7 (the quality block contributes
nothing). -/
theorem scenario_c_composite_value :
    passRate ⟨10, 8, 10, [500], [1 / 100], [], [], [], [], []⟩ = 80 ∧
      compileRate ⟨10, 8, 10, [500], [1 / 100], [], [], [], [], []⟩ = 100 ∧
      timeScore (avgResponseTime ⟨10, 8, 10, [500], [1 / 100], [], [], [], [], []⟩) = 95 ∧
      costScore (totalCost ⟨10, 8, 10, [500], [1 / 100], [], [], [], [], []⟩) = 99 ∧
      compositeScore ⟨10, 8, 10, [500], [1 / 100], [], [], [], [], []⟩ =
        80 * (1 / 2) + 100 * (1 / 5) + 95 * (1 / 20) + 99 * (1 / 20) := by
  refine ⟨?_, ?_, ?_, ?_, ?_⟩ <;>
    norm_num [compositeScore, passRate, compileRate, avgResponseTime, totalCost,
      listAvg, qualitySubscore, timeScore, costScore]

/-- C3 counterexample: for the aggregate with one test passed and compiled
and a single cyclomatic-complexity sample of 0 (average complexity below 1),
the quality sub-score entering the 5-factor weighted sum is
`max(0, 100 - (0-1)*3.33) = 103.33 > 100`, and the composite score is
100.666 > 100 — the normalization claim fails. -/
theorem composite_range_counterexample :
    listAvg (ModelStats.complexities ⟨1, 1, 1, [], [], [0], [], [], [], []⟩) = some 0 ∧
      complexityScore 0 = 10333 / 100 ∧
      (100 : ℚ) < complexityScore 0 ∧
      compositeScore ⟨1, 1, 1, [], [], [0], [], [], [], []⟩ = 50333 / 500 ∧
      (100 : ℚ) < compositeScore ⟨1, 1, 1, [], [], [0], [], [], [], []⟩ := by
  refine ⟨?_, ?_, ?_, ?_, ?_⟩ <;>
    norm_num [compositeScore, passRate, compileRate, avgResponseTime, totalCost,
      listAvg, qualitySubscore, complexityScore, timeScore, costScore]

/-! ### Sub-score bounds -/

theorem rate_bounds (p t : ℕ) (h : p ≤ t) :
    0 ≤ (if 0 < t then (p : ℚ) / (t : ℚ) * 100 else 0) ∧
      (if 0 < t then (p : ℚ) / (t : ℚ) * 100 else 0) ≤ 100 := by
  split_ifs with ht
  · have htq : (0 : ℚ) < (t : ℚ) := by exact_mod_cast ht
    constructor
    · positivity
    · have h1 : (p : ℚ) / (t : ℚ) ≤ 1 := by
        rw [div_le_one htq]
        exact_mod_cast h
      nlinarith
  · norm_num

theorem le_listAvg (lo : ℚ) (l : List ℚ) (h : ∀ x ∈ l, lo ≤ x) (v : ℚ)
    (hv : listAvg l = some v) : lo ≤ v := by
  unfold listAvg at hv
  split_ifs at hv with hl
  have hlen : 0 < l.length := List.length_pos.mpr hl
  have hlenq : (0 : ℚ) < (l.length : ℚ) := by exact_mod_cast hlen
  have hsum : (l.length : ℚ) * lo ≤ l.sum := by
    have := List.card_nsmul_le_sum l lo h
    simpa [nsmul_eq_mul] using this
  have hv' : v = l.sum / l.length := (Option.some_injective ℚ hv).symm
  rw [hv', le_div_iff hlenq]
  linarith

theorem listAvg_le (hi : ℚ) (l : List ℚ) (h : ∀ x ∈ l, x ≤ hi) (v : ℚ)
    (hv : listAvg l = some v) : v ≤ hi := by
  unfold listAvg at hv
  split_ifs at hv with hl
  have hlen : 0 < l.length := List.length_pos.mpr hl
  have hlenq : (0 : ℚ) < (l.length : ℚ) := by exact_mod_cast hlen
  have hsum : l.sum ≤ (l.length : ℚ) * hi := by
    have := List.sum_le_card_nsmul l hi h
    simpa [nsmul_eq_mul] using this
  have hv' : v = l.sum / l.length := (Option.some_injective ℚ hv).symm
  rw [hv', div_le_iff hlenq]
  linarith

theorem complexityScore_bounds (c : ℚ) (hc : 1 ≤ c) :
    0 ≤ complexityScore c ∧ complexityScore c ≤ 100 := by
  unfold complexityScore
  constructor
  · exact le_max_left 0 _
  · apply max_le <;> nlinarith

theorem timeScore_bounds (t : ℚ) (ht : 0 ≤ t) :
    0 ≤ timeScore t ∧ timeScore t ≤ 100 := by
  unfold timeScore
  constructor
  · exact le_max_left 0 _
  · apply max_le <;> nlinarith

theorem costScore_bounds (c : ℚ) : 0 ≤ costScore c ∧ costScore c ≤ 100 := by
  unfold costScore
  split_ifs with hc
  · constructor
    · exact le_max_left 0 _
    · apply max_le <;> nlinarith
  · norm_num

theorem securityScore_bounds (a : ℚ) (ha : 0 ≤ a) :
    0 ≤ securityScore a ∧ securityScore a ≤ 100 := by
  unfold securityScore
  constructor
  · exact le_max_left 0 _
  · apply max_le <;> nlinarith

theorem densityScore_bounds (d : ℚ) :
    0 ≤ densityScore d ∧ densityScore d ≤ 100 := by
  unfold densityScore
  split_ifs with h1 h2 h3
  · norm_num
  · constructor
    · exact le_max_left 0 _
    · apply max_le <;> nlinarith
  · push_neg at h1
    have hd : d * 100 < 10 := by
      rcases lt_or_le (d * 100) 10 with h | h
      · exact h
      · exact absurd (h1 h) (by push_neg; linarith)
    constructor <;> nlinarith
  · norm_num

theorem avgResponseTime_nonneg (s : ModelStats)
    (h : ∀ x ∈ s.response_times, 0 ≤ x) : 0 ≤ avgResponseTime s := by
  unfold avgResponseTime
  split_ifs with hl
  · exact le_refl 0
  · exact div_nonneg (List.sum_nonneg h) (by positivity)

theorem passRate_bounds (s : ModelStats) (h : s.passed ≤ s.total) :
    0 ≤ passRate s ∧ passRate s ≤ 100 := by
  unfold passRate
  exact rate_bounds s.passed s.total h

theorem compileRate_bounds (s : ModelStats) (h : s.compiled ≤ s.total) :
    0 ≤ compileRate s ∧ compileRate s ≤ 100 := by
  unfold compileRate
  exact rate_bounds s.compiled s.total h

theorem qualitySubscore_bounds (avgC avgM : Option ℚ)
    (hC : ∀ c, avgC = some c → 1 ≤ c)
    (hM : ∀ m, avgM = some m → 0 ≤ m ∧ m ≤ 100) :
    ∀ q, qualitySubscore avgC avgM = some q → 0 ≤ q ∧ q ≤ 100 := by
  intro q hq
  rcases avgC with _ | c <;> rcases avgM with _ | m <;>
    simp [qualitySubscore] at hq
  · rcases hM m rfl with ⟨h1, h2⟩
    constructor <;> simp [← hq] <;> linarith
  · rcases complexityScore_bounds c (hC c rfl) with ⟨h1, h2⟩
    constructor <;> simp [← hq] <;> linarith
  · rcases complexityScore_bounds c (hC c rfl) with ⟨h1, h2⟩
    rcases hM m rfl with ⟨h3, h4⟩
    constructor <;> simp [← hq] <;> linarith

theorem explainabilitySubscore_bounds (avgE avgD : Option ℚ)
    (hE : ∀ e, avgE = some e → 0 ≤ e ∧ e ≤ 10) :
    ∀ x, explainabilitySubscore avgE avgD = some x → 0 ≤ x ∧ x ≤ 100 := by
  intro x hx
  rcases avgE with _ | e <;> rcases avgD with _ | d <;>
    simp [explainabilitySubscore] at hx
  · rcases densityScore_bounds d with ⟨h1, h2⟩
    constructor <;> simp [← hx] <;> linarith
  · rcases hE e rfl with ⟨h1, h2⟩
    constructor <;> simp [← hx] <;> linarith
  · rcases hE e rfl with ⟨h1, h2⟩
    rcases densityScore_bounds d with ⟨h3, h4⟩
    constructor <;> simp [← hx] <;> linarith

/-- C3 amended: the nominal weights of both schemes sum to 100%, and the
composite scores of both reporters lie in [0,100] provided every
cyclomatic-complexity sample is at least 1 (for samples below 1 the
complexity sub-score exceeds 100 and the composite can leave [0,100], see
the counterexample), every maintainability sample lies in [0,100], every
explanation-score sample lies in [0,10], and response times, security-issue
counts and pass/compile counts are well-formed. -/
theorem composite_score_in_range (s : ModelStats)
    (hp : s.passed ≤ s.total) (hc : s.compiled ≤ s.total)
    (hrt : ∀ x ∈ s.response_times, 0 ≤ x)
    (hcx : ∀ x ∈ s.complexities, 1 ≤ x)
    (hm : ∀ x ∈ s.maintainability_scores, 0 ≤ x ∧ x ≤ 100)
    (hsec : ∀ x ∈ s.security_issues, 0 ≤ x)
    (hex : ∀ x ∈ s.explanation_scores, 0 ≤ x ∧ x ≤ 10) :
    ((1 : ℚ) / 2 + 1 / 5 + 1 / 5 + 1 / 20 + 1 / 20 = 1 ∧
      (2 : ℚ) / 5 + 3 / 20 + 3 / 20 + 3 / 20 + 1 / 10 + 1 / 40 + 1 / 40 = 1) ∧
    (0 ≤ compositeScore s ∧ compositeScore s ≤ 100) ∧
    (0 ≤ compositeScoreGrafana s ∧ compositeScoreGrafana s ≤ 100) := by
  have hpr := passRate_bounds s hp
  have hcr := compileRate_bounds s hc
  have hts := timeScore_bounds (avgResponseTime s) (avgResponseTime_nonneg s hrt)
  have hcs := costScore_bounds (totalCost s)
  have hqb := qualitySubscore_bounds (listAvg s.complexities)
    (listAvg s.maintainability_scores)
    (fun c hc' => le_listAvg 1 _ hcx c hc')
    (fun m hm' => ⟨le_listAvg 0 _ (fun x hx => (hm x hx).1) m hm',
      listAvg_le 100 _ (fun x hx => (hm x hx).2) m hm'⟩)
  have hsb : ∀ a, listAvg s.security_issues = some a →
      0 ≤ securityScore a ∧ securityScore a ≤ 100 :=
    fun a ha => securityScore_bounds a (le_listAvg 0 _ hsec a ha)
  have heb := explainabilitySubscore_bounds (listAvg s.explanation_scores)
    (listAvg s.comment_densities)
    (fun e he => ⟨le_listAvg 0 _ (fun x hx => (hex x hx).1) e he,
      listAvg_le 10 _ (fun x hx => (hex x hx).2) e he⟩)
  obtain ⟨hpr1, hpr2⟩ := hpr
  obtain ⟨hcr1, hcr2⟩ := hcr
  obtain ⟨hts1, hts2⟩ := hts
  obtain ⟨hcs1, hcs2⟩ := hcs
  refine ⟨⟨by norm_num, by norm_num⟩, ?_, ?_⟩
  · rcases hq : qualitySubscore (listAvg s.complexities)
        (listAvg s.maintainability_scores) with _ | q
    · simp only [compositeScore, hq]
      constructor <;> ring_nf <;>
        linarith only [hpr1, hpr2, hcr1, hcr2, hts1, hts2, hcs1, hcs2]
    · rcases hqb q hq with ⟨hq1, hq2⟩
      simp only [compositeScore, hq]
      constructor <;> ring_nf <;>
        linarith only [hpr1, hpr2, hcr1, hcr2, hts1, hts2, hcs1, hcs2, hq1, hq2]
  · rcases hq : qualitySubscore (listAvg s.complexities)
        (listAvg s.maintainability_scores) with _ | q <;>
      rcases hsa : listAvg s.security_issues with _ | a <;>
        rcases he : explainabilitySubscore (listAvg s.explanation_scores)
          (listAvg s.comment_densities) with _ | e <;>
      simp only [compositeScoreGrafana, hq, hsa, he]
    · constructor <;> ring_nf <;>
        linarith only [hpr1, hpr2, hcr1, hcr2, hts1, hts2, hcs1, hcs2]
    · rcases heb e he with ⟨he1, he2⟩
      constructor <;> ring_nf <;>
        linarith only [hpr1, hpr2, hcr1, hcr2, hts1, hts2, hcs1, hcs2, he1, he2]
    · rcases hsb a hsa with ⟨hs1, hs2⟩
      constructor <;> ring_nf <;>
        linarith only [hpr1, hpr2, hcr1, hcr2, hts1, hts2, hcs1, hcs2, hs1, hs2]
    · rcases hsb a hsa with ⟨hs1, hs2⟩
      rcases heb e he with ⟨he1, he2⟩
      constructor <;> ring_nf <;>
        linarith only [hpr1, hpr2, hcr1, hcr2, hts1, hts2, hcs1, hcs2, hs1, hs2, he1, he2]
    · rcases hqb q hq with ⟨hq1, hq2⟩
      constructor <;> ring_nf <;>
        linarith only [hpr1, hpr2, hcr1, hcr2, hts1, hts2, hcs1, hcs2, hq1, hq2]
    · rcases hqb q hq with ⟨hq1, hq2⟩
      rcases heb e he with ⟨he1, he2⟩
      constructor <;> ring_nf <;>
        linarith only [hpr1, hpr2, hcr1, hcr2, hts1, hts2, hcs1, hcs2, hq1, hq2, he1, he2]
    · rcases hqb q hq with ⟨hq1, hq2⟩
      rcases hsb a hsa with ⟨hs1, hs2⟩
      constructor <;> ring_nf <;>
        linarith only [hpr1, hpr2, hcr1, hcr2, hts1, hts2, hcs1, hcs2, hq1, hq2, hs1, hs2]
    · rcases hqb q hq with ⟨hq1, hq2⟩
      rcases hsb a hsa with ⟨hs1, hs2⟩
      rcases heb e he with ⟨he1, he2⟩
      constructor <;> ring_nf <;>
        linarith only [hpr1, hpr2, hcr1, hcr2, hts1, hts2, hcs1, hcs2, hq1, hq2, hs1, hs2, he1, he2]

theorem composite_score_in_range_witness :
    (((1 : ℚ) / 2 + 1 / 5 + 1 / 5 + 1 / 20 + 1 / 20 = 1 ∧
      (2 : ℚ) / 5 + 3 / 20 + 3 / 20 + 3 / 20 + 1 / 10 + 1 / 40 + 1 / 40 = 1) ∧
    (0 ≤ compositeScore ⟨2, 1, 2, [100], [1 / 2], [2], [50], [1], [5], [1 / 10]⟩ ∧
      compositeScore ⟨2, 1, 2, [100], [1 / 2], [2], [50], [1], [5], [1 / 10]⟩ ≤ 100) ∧
    (0 ≤ compositeScoreGrafana ⟨2, 1, 2, [100], [1 / 2], [2], [50], [1], [5], [1 / 10]⟩ ∧
      compositeScoreGrafana ⟨2, 1, 2, [100], [1 / 2], [2], [50], [1], [5], [1 / 10]⟩ ≤ 100)) :=
  composite_score_in_range ⟨2, 1, 2, [100], [1 / 2], [2], [50], [1], [5], [1 / 10]⟩
    (by norm_num) (by norm_num)
    (by intro x hx; simp at hx; subst hx; norm_num)
    (by intro x hx; simp at hx; subst hx; norm_num)
    (by intro x hx; simp at hx; subst hx; norm_num)
    (by intro x hx; simp at hx; subst hx; norm_num)
    (by intro x hx; simp at hx; subst hx; norm_num)

/-- C8: for every Java snippet and every token of `COMMON_JAVA_IMPORTS`
whose entry offers both a jakarta-namespace and a legacy javax-namespace
variant, when the injector adds an import for that token (the token occurs
in the snippet and neither variant is imported yet) it adds exactly one
statement, and that statement is the jakarta variant iff the jakarta
namespace already appears somewhere in the snippet, and the javax variant
otherwise. -/
theorem dual_variant_import_selects_by_namespace
    (code : String) (existing : List String) (pat : String) (stmts : List String)
    (hmem : (pat, ImportEntry.multi stmts) ∈ commonJavaImports)
    (hfire : strContains code pat = true)
    (hnew : ∀ c ∈ stmts.map stripImportStmt, existing.contains c = false) :
    (importsForEntry code existing pat (ImportEntry.multi stmts)).length = 1 ∧
      ∀ s ∈ importsForEntry code existing pat (ImportEntry.multi stmts),
        strContains s "jakarta" = strContains code "jakarta" ∧
        strContains s "javax" = !(strContains code "jakarta") := by
  have hany : (stmts.map stripImportStmt).any (fun c => existing.contains c) = false :=
    List.any_eq_false.mpr
      (fun c hc => by simp only [hnew c hc]; exact Bool.false_ne_true)
  simp only [commonJavaImports, List.mem_cons, List.not_mem_nil, or_false,
    Prod.mk.injEq, reduceCtorEq, ImportEntry.multi.injEq, false_and, and_false,
    false_or] at hmem
  rcases hmem with h | h | h | h | h | h | h | h | h | h <;>
    obtain ⟨rfl, rfl⟩ := h <;>
    rcases hjak : strContains code "jakarta" with _ | _ <;>
      simp only [importsForEntry, hfire, hany, hjak, if_true, Bool.false_eq_true,
        if_false] <;>
    decide

theorem dual_variant_import_selects_by_namespace_witness :
    (importsForEntry "@Inject class A" [] "@Inject"
        (ImportEntry.multi ["import javax.inject.Inject;",
          "import jakarta.inject.Inject;"])).length = 1 ∧
      ∀ s ∈ importsForEntry "@Inject class A" [] "@Inject"
          (ImportEntry.multi ["import javax.inject.Inject;",
            "import jakarta.inject.Inject;"]),
        strContains s "jakarta" = strContains "@Inject class A" "jakarta" ∧
        strContains s "javax" = !(strContains "@Inject class A" "jakarta") :=
  dual_variant_import_selects_by_namespace "@Inject class A" [] "@Inject"
    ["import javax.inject.Inject;", "import jakarta.inject.Inject;"]
    (by decide) (by decide) (by decide)

end KonveyorIQ
